import Mathlib

/-!
Verification of the CyberDirectory client against its specification.

The repository is a React/TypeScript single-page application.  The logic
relevant to the claims is embedded shallowly below: each React event handler
or derived value becomes a pure Lean function from its inputs (component
state, backend call outcome) to the successor state together with a list of
emitted effects (toasts, console logs, network writes).  JavaScript strings
become Lean strings, JS arrays become lists, nullable fields become Option,
and numbers become Int or Nat (the code under scrutiny performs only
integer-valued arithmetic on them).
-/

namespace CyberDirectory

/-- Model of the JavaScript `String.prototype.includes` check on a list of
characters: `listStartsWith hay sub` is true when `sub` is a prefix of
`hay`. -/
def listStartsWith : List Char → List Char → Bool
  | _, [] => true
  | [], _ :: _ => false
  | a :: as, b :: bs => a == b && listStartsWith as bs

/-- `listContainsSub hay sub` is true when `sub` occurs contiguously inside
`hay`; model of the JavaScript `includes` substring test. -/
def listContainsSub (hay sub : List Char) : Bool :=
  match hay with
  | [] => listStartsWith [] sub
  | _ :: t => listStartsWith hay sub || listContainsSub t sub

/-- `jsIncludes s sub`: model of the JavaScript expression
`s.includes(sub)`. -/
def jsIncludes (s sub : String) : Bool :=
  listContainsSub s.toList sub.toList

/-- Whitespace class of the JavaScript regular expression `\s` restricted to
the characters that occur in the catalog data (space, tab, newline,
carriage return). -/
def isWsChar (c : Char) : Bool :=
  c == ' ' || c == '\t' || c == '\n' || c == '\r'

/-- Model of `String.prototype.toLowerCase`, character by character. -/
def jsToLower (s : String) : String :=
  String.mk (s.toList.map Char.toLower)

/-- Drop leading whitespace from a character list. -/
def dropWsLead : List Char → List Char
  | [] => []
  | c :: cs => if isWsChar c then dropWsLead cs else c :: cs

/-- Model of `String.prototype.trim`: strip whitespace from both ends. -/
def jsTrim (s : String) : String :=
  String.mk ((dropWsLead (dropWsLead s.toList).reverse).reverse)

/-- Replace maximal runs of whitespace by a single hyphen; the boolean flag
records whether the previous character was part of a whitespace run.  Model
of `value.replace(/\s+/g, "-")`. -/
def collapseWsAux : Bool → List Char → List Char
  | _, [] => []
  | prevWs, c :: rest =>
    if isWsChar c then
      if prevWs then collapseWsAux true rest
      else '-' :: collapseWsAux true rest
    else c :: collapseWsAux false rest

/-- A catalog Tool record (src/data/tools shape, as read by the
components): identifier, name, description, optional tags, optional
category and type, optional trust score, vote count, last-updated
timestamp (milliseconds since epoch). -/
structure Tool where
  id : String
  name : String
  description : String
  tags : Option (List String) := none
  category : Option String := none
  toolType : Option String := none
  trust_score : Option Int := none
  votes : Option Int := none
  last_updated : Option Int := none
deriving DecidableEq, Repr

namespace ToolsList

/-- `normalizeFilterValue` from ToolsList.tsx:
`value.toLowerCase().replace(/\s+/g, "-")`. -/
def normalizeFilterValue (value : String) : String :=
  String.mk (collapseWsAux false (jsToLower value).toList)

/-- The search predicate of `searchTools` in ToolsList.tsx: the query is a
case-insensitive substring of the name, the description, or some tag
(`tool.tags && tool.tags.some(...)`). -/
def searchPred (query : String) (tool : Tool) : Bool :=
  jsIncludes (jsToLower tool.name) (jsToLower query) ||
  jsIncludes (jsToLower tool.description) (jsToLower query) ||
  (match tool.tags with
   | none => false
   | some tags => tags.any (fun tag => jsIncludes (jsToLower tag) (jsToLower query)))

/-- `searchTools` from ToolsList.tsx: filter the tool list by the search
predicate. -/
def searchTools (tools : List Tool) (query : String) : List Tool :=
  tools.filter (searchPred query)

/-- The category filter body in ToolsList.tsx:
`tool.category && normalizeFilterValue(tool.category) === selectedCategory`. -/
def categoryPred (selectedCategory : String) (tool : Tool) : Bool :=
  match tool.category with
  | none => false
  | some c => normalizeFilterValue c == selectedCategory

/-- The type filter body in ToolsList.tsx:
`if (!tool.type) return false; return normalizeFilterValue(tool.type) === selectedType`. -/
def typePred (selectedType : String) (tool : Tool) : Bool :=
  match tool.toolType with
  | none => false
  | some ty => normalizeFilterValue ty == selectedType

/-- The `filteredTools` pipeline of ToolsList.tsx: apply the search filter
when the query is non-empty (JS truthiness of a string), then the category
filter unless the selection is "all", then the type filter unless the
selection is "all". -/
def filteredTools (tools : List Tool)
    (searchQuery selectedCategory selectedType : String) : List Tool :=
  let ft := if searchQuery ≠ "" then searchTools tools searchQuery else tools
  let ft := if selectedCategory ≠ "all" then ft.filter (categoryPred selectedCategory) else ft
  if selectedType ≠ "all" then ft.filter (typePred selectedType) else ft

/-- Whether a tool passes the category stage of the pipeline for a given
filter value ("all" bypasses the stage). -/
def codeCategoryPasses (selectedCategory : String) (tool : Tool) : Bool :=
  selectedCategory == "all" || categoryPred selectedCategory tool

/-- Whether a tool passes the type stage of the pipeline for a given filter
value ("all" bypasses the stage). -/
def codeTypePasses (selectedType : String) (tool : Tool) : Bool :=
  selectedType == "all" || typePred selectedType tool

/-- Modelled from the spec: the category/type comparison as the
specification words it, normalizing BOTH the stored field and the filter
value before the equality test.  Kept separate from the code-derived
`codeCategoryPasses` so the two can be compared. -/
def specCategoryPasses (selectedCategory : String) (tool : Tool) : Bool :=
  selectedCategory == "all" ||
  (match tool.category with
   | none => false
   | some c => normalizeFilterValue c == normalizeFilterValue selectedCategory)

/-- `tool.trust_score || 0` as an integer. -/
def scoreOf (t : Tool) : Int := t.trust_score.getD 0

/-- `tool.votes || 0` as an integer. -/
def votesOf (t : Tool) : Int := t.votes.getD 0

/-- `new Date(tool.last_updated || 0).getTime()` as an integer timestamp
(a missing date yields the epoch, i.e. 0). -/
def timeOf (t : Tool) : Int := t.last_updated.getD 0

/-- Sign-valued string comparison, the shape of
`a.name.localeCompare(b.name)` (modelled with code-unit lexicographic
order). -/
def strCmp (a b : String) : Int :=
  if a < b then -1 else if b < a then 1 else 0

/-- The comparator of the `sortedTools` sort in ToolsList.tsx, one branch
per sort key; any unknown key compares everything equal. -/
def toolCmp (key : String) (a b : Tool) : Int :=
  if key == "name" then strCmp a.name b.name
  else if key == "trust-score" then scoreOf b - scoreOf a
  else if key == "popularity" then votesOf b - votesOf a
  else if key == "recent" then timeOf b - timeOf a
  else 0

/-- `sortedTools` from ToolsList.tsx: `[...filteredTools].sort(cmp)`.
JavaScript array sort is specified to be stable; with the consistent
comparators above its result is the unique stable sort, modelled by
insertion sort on the relation "compares less or equal". -/
def sortedTools (key : String) (l : List Tool) : List Tool :=
  l.insertionSort (fun a b => toolCmp key a b ≤ 0)

end ToolsList

/-- Outcome of an asynchronous backend write as observed by a handler:
the promise resolves without an error field, resolves with a supabase-style
error descriptor (the spec calls this a backend rejection), or rejects,
i.e. throws into the surrounding try/catch. -/
inductive CallResult where
  | ok
  | errReturn (msg : String)
  | threw (msg : String)
deriving DecidableEq, Repr

/-- A user-facing or console effect emitted by a handler. -/
inductive Eff where
  | toastSuccess (title : String)
  | toastError (title : String)
  | consoleLog (msg : String)
deriving DecidableEq, Repr

namespace ToolsList

/-- The component state of ToolsList.tsx that the handlers touch. -/
structure TLState where
  tools : List Tool
  wishlistedTools : List String
  votedTools : List String
  error : Option String
deriving DecidableEq, Repr

/-- `handleWishlistToggle` from ToolsList.tsx.  Without a user it only
toasts.  Otherwise it awaits `toggleWishlist`; the returned value is NOT
inspected, so only a thrown rejection reaches the catch block (which calls
setError); a resolved call — with or without an error descriptor — falls
through to the local wishlist update and the success toast. -/
def handleWishlistToggle (user : Option String) (toolId : String)
    (res : CallResult) (st : TLState) : TLState × List Eff :=
  match user with
  | none => (st, [Eff.toastError "Login required"])
  | some _ =>
    match res with
    | CallResult.threw msg =>
      ({ st with error := some msg }, [Eff.consoleLog "Wishlist error:"])
    | _ =>
      let isWishlisted := st.wishlistedTools.contains toolId
      let newList :=
        if isWishlisted then st.wishlistedTools.filter (fun i => i ≠ toolId)
        else st.wishlistedTools ++ [toolId]
      ({ st with wishlistedTools := newList },
       [Eff.toastSuccess
          (if isWishlisted then "Removed from wishlist" else "Added to wishlist")])

/-- `handleUpvote` from ToolsList.tsx.  Here the returned error descriptor
IS inspected: an error return toasts destructively and leaves the state
alone; success bumps the displayed vote count and records the vote; a
thrown rejection is caught and toasts destructively. -/
def handleUpvote (user : Option String) (toolId : String)
    (res : CallResult) (st : TLState) : TLState × List Eff :=
  match user with
  | none => (st, [Eff.toastError "Login required"])
  | some _ =>
    match res with
    | CallResult.errReturn msg => (st, [Eff.toastError msg])
    | CallResult.threw _ =>
      (st, [Eff.consoleLog "Error handling upvote:", Eff.toastError "Failed to record vote"])
    | CallResult.ok =>
      ({ st with
          tools := st.tools.map (fun t =>
            if t.id == toolId then { t with votes := some (t.votes.getD 0 + 1) } else t),
          votedTools := st.votedTools ++ [toolId] },
       [Eff.toastSuccess "Vote recorded"])

end ToolsList

namespace ToolCard

/-- `handleVote` from ToolCard.tsx.  `upvoteTool` resolves with an error
descriptor which the handler re-throws into its catch block; both the
error-return and the thrown case end in the destructive toast, and the
`onVoteSuccess` callback fires only on success.  The returned Bool records
whether that callback was invoked. -/
def handleVote (user : Option String) (res : CallResult) : Bool × List Eff :=
  match user with
  | none => (false, [Eff.toastError "Login required"])
  | some _ =>
    match res with
    | CallResult.ok => (true, [Eff.toastSuccess "Vote recorded"])
    | CallResult.errReturn msg => (false, [Eff.toastError msg])
    | CallResult.threw msg => (false, [Eff.toastError msg])

/-- `handleWishlistToggle` from ToolCard.tsx: the error descriptor is
re-thrown, so every failure reaches the destructive toast and the
`onWishlistChange` callback fires only on success. -/
def handleWishlistToggle (user : Option String) (res : CallResult) : Bool × List Eff :=
  match user with
  | none => (false, [Eff.toastError "Login required"])
  | some _ =>
    match res with
    | CallResult.ok => (true, [Eff.toastSuccess "Updated wishlist"])
    | CallResult.errReturn msg => (false, [Eff.toastError msg])
    | CallResult.threw msg => (false, [Eff.toastError msg])

end ToolCard

namespace ReviewSection

/-- A row of the `reviews` table: identifier, tool reference, author
reference, rating, comment, creation timestamp. -/
structure Review where
  id : Nat
  tool_id : String
  user_id : String
  rating : Nat
  comment : String
  created_at : Nat
deriving DecidableEq, Repr

/-- The reviews store: its rows, the next identifier handed out on insert,
and the current clock used for created_at. -/
structure ReviewsDB where
  rows : List Review
  nextId : Nat
  now : Nat
deriving DecidableEq, Repr

/-- A supabase `insert` into `reviews`: appends a fresh row. -/
def insertReview (db : ReviewsDB) (toolId userId : String)
    (rating : Nat) (comment : String) : ReviewsDB :=
  { rows := db.rows ++
      [{ id := db.nextId, tool_id := toolId, user_id := userId,
         rating := rating, comment := comment, created_at := db.now }],
    nextId := db.nextId + 1,
    now := db.now }

/-- A supabase `update ... eq("id", rid)` on `reviews`: rewrites rating and
comment of every row whose id matches. -/
def updateReview (db : ReviewsDB) (rid : Nat)
    (rating : Nat) (comment : String) : ReviewsDB :=
  { db with rows := db.rows.map (fun r =>
      if r.id == rid then { r with rating := rating, comment := comment } else r) }

/-- The rows `fetchReviews` receives for a tool: filtered by tool_id and
ordered by created_at descending (stable). -/
def reviewsForTool (db : ReviewsDB) (toolId : String) : List Review :=
  (db.rows.filter (fun r => r.tool_id == toolId)).insertionSort
    (fun a b => b.created_at ≤ a.created_at)

/-- Step 4 of `fetchReviews`: the current user review is the first fetched
row whose author is the session user (`merged.find(r => r.user_id === user.id)`). -/
def currentUserReviewOf (db : ReviewsDB) (toolId : String)
    (user : Option String) : Option Review :=
  match user with
  | none => none
  | some uid => (reviewsForTool db toolId).find? (fun r => r.user_id == uid)

/-- Result channel of `handleSubmitReview`. -/
inductive SubmitOutcome where
  | loginRequired
  | missingInfo
  | updated (rid : Nat)
  | inserted
deriving DecidableEq, Repr

/-- `handleSubmitReview` from ReviewSection.tsx.  Guards: a known identity,
a non-zero rating and a non-empty trimmed comment.  The target id is
`editingReviewId || currentUserReview?.id`; when known the operation is an
update on that id, otherwise an insert of (tool, user, rating, trimmed
comment). -/
def handleSubmitReview (db : ReviewsDB) (toolId : String)
    (user : Option String) (rating : Nat) (newReview : String)
    (editingReviewId : Option Nat) (currentUserReview : Option Review) :
    ReviewsDB × SubmitOutcome :=
  match user with
  | none => (db, SubmitOutcome.loginRequired)
  | some uid =>
    if rating == 0 || jsTrim newReview == "" then (db, SubmitOutcome.missingInfo)
    else
      let reviewId :=
        match editingReviewId with
        | some rid => some rid
        | none => currentUserReview.map (fun r => r.id)
      match reviewId with
      | some rid => (updateReview db rid rating (jsTrim newReview), SubmitOutcome.updated rid)
      | none => (insertReview db toolId uid rating (jsTrim newReview), SubmitOutcome.inserted)

/-- Submission from component state freshly synchronized by
`fetchReviews`: both `currentUserReview` and `editingReviewId` reflect the
store (fetchReviews sets editingReviewId to the existing id or null). -/
def submitSynced (db : ReviewsDB) (toolId : String) (user : Option String)
    (rating : Nat) (comment : String) : ReviewsDB × SubmitOutcome :=
  let cur := currentUserReviewOf db toolId user
  handleSubmitReview db toolId user rating comment (cur.map (fun r => r.id)) cur

/-- The store after a synchronized submission. -/
def submitDb (db : ReviewsDB) (toolId uid : String)
    (rating : Nat) (comment : String) : ReviewsDB :=
  (submitSynced db toolId (some uid) rating comment).1

/-- The outcome of a synchronized submission. -/
def submitOut (db : ReviewsDB) (toolId uid : String)
    (rating : Nat) (comment : String) : SubmitOutcome :=
  (submitSynced db toolId (some uid) rating comment).2

/-- Number of reviews stored for a (tool, author) pair. -/
def pairCount (db : ReviewsDB) (toolId uid : String) : Nat :=
  (db.rows.filter (fun r => r.tool_id == toolId && r.user_id == uid)).length

/-- `handleDeleteReview` from ReviewSection.tsx: returns the id sent to the
backend delete call, or none when the handler bails out (no identity, no
such review in the loaded list, or a non-matching author). -/
def handleDeleteReview (user : Option String) (reviews : List Review)
    (id : Nat) : Option Nat :=
  match user with
  | none => none
  | some uid =>
    match reviews.find? (fun r => r.id == id) with
    | none => none
    | some target => if target.user_id == uid then some id else none

end ReviewSection

namespace Comparison

/-- The state of Camparison.tsx touched by `handleAddTool`: the selected
tools, the "tools" query parameter, and the add dialog flag. -/
structure CompState where
  selectedTools : List Tool
  urlTools : Option String
  isAddDialogOpen : Bool
deriving DecidableEq, Repr

/-- `updateUrl` from Camparison.tsx: join the selected ids with commas; a
non-empty join sets the "tools" query parameter, an empty one clears it. -/
def updateUrl (tools : List Tool) (st : CompState) : CompState :=
  let ids := String.intercalate "," (tools.map (fun t => t.id))
  if ids ≠ "" then { st with urlTools := some ids }
  else { st with urlTools := none }

/-- `handleAddTool` from Camparison.tsx: with four or more tools already
selected it returns before touching anything; otherwise it appends the
tool, mirrors the selection into the query parameter and closes the
dialog. -/
def handleAddTool (tool : Tool) (st : CompState) : CompState :=
  if st.selectedTools.length ≥ 4 then st
  else
    let newSelected := st.selectedTools ++ [tool]
    let st := updateUrl newSelected { st with selectedTools := newSelected }
    { st with isAddDialogOpen := false }

end Comparison

namespace Roadmap

/-- A JSON value as produced by `JSON.parse`; numbers are modelled by their
integer part (the roadmap payloads only carry integer stage indices). -/
inductive Json where
  | null
  | bool (b : Bool)
  | num (n : Int)
  | str (s : String)
  | arr (items : List Json)
  | obj (fields : List (String × Json))

/-- The opening brace character. -/
def lbrace : Char := Char.ofNat 123

/-- The closing brace character. -/
def rbrace : Char := Char.ofNat 125

/-- JSON insignificant whitespace. -/
def isJsonWs (c : Char) : Bool :=
  c == ' ' || c == '\t' || c == '\n' || c == '\r'

/-- Drop leading JSON whitespace. -/
def skipWs : List Char → List Char
  | [] => []
  | c :: cs => if isJsonWs c then skipWs cs else c :: cs

/-- Decimal digit test. -/
def isDigitCh (c : Char) : Bool := '0' ≤ c && c ≤ '9'

/-- Split off a leading run of decimal digits. -/
def takeDigits : List Char → List Char × List Char
  | [] => ([], [])
  | c :: cs =>
    if isDigitCh c then
      let p := takeDigits cs
      (c :: p.1, p.2)
    else ([], c :: cs)

/-- Numeric value of a digit run. -/
def digitsToNat (ds : List Char) : Nat :=
  ds.foldl (fun n c => n * 10 + (c.toNat - 48)) 0

/-- Hexadecimal digit value, if any. -/
def hexVal (c : Char) : Option Nat :=
  if isDigitCh c then some (c.toNat - 48)
  else if 'a' ≤ c && c ≤ 'f' then some (c.toNat - 87)
  else if 'A' ≤ c && c ≤ 'F' then some (c.toNat - 55)
  else none

/-- Parse the body of a JSON string after the opening quote, handling the
escape sequences of the grammar; returns the string and the rest of the
input.  (The model accepts raw control characters that strict JSON would
reject; the claims never depend on such inputs.) -/
def parseStringBody : Nat → List Char → List Char → Option (String × List Char)
  | 0, _, _ => none
  | _ + 1, [], _ => none
  | f + 1, c :: rest, acc =>
    if c == '"' then some (String.mk acc.reverse, rest)
    else if c == '\\' then
      match rest with
      | [] => none
      | e :: rest2 =>
        if e == '"' then parseStringBody f rest2 ('"' :: acc)
        else if e == '\\' then parseStringBody f rest2 ('\\' :: acc)
        else if e == '/' then parseStringBody f rest2 ('/' :: acc)
        else if e == 'b' then parseStringBody f rest2 (Char.ofNat 8 :: acc)
        else if e == 'f' then parseStringBody f rest2 (Char.ofNat 12 :: acc)
        else if e == 'n' then parseStringBody f rest2 ('\n' :: acc)
        else if e == 'r' then parseStringBody f rest2 ('\r' :: acc)
        else if e == 't' then parseStringBody f rest2 ('\t' :: acc)
        else if e == 'u' then
          match rest2 with
          | h1 :: h2 :: h3 :: h4 :: rest3 =>
            match hexVal h1, hexVal h2, hexVal h3, hexVal h4 with
            | some a, some b, some c3, some d =>
              parseStringBody f rest3 (Char.ofNat (((a * 16 + b) * 16 + c3) * 16 + d) :: acc)
            | _, _, _, _ => none
          | _ => none
        else none
    else parseStringBody f rest (c :: acc)

/-- Parse a JSON number per the grammar: optional minus, an integer part
without a superfluous leading zero, an optional fraction and an optional
exponent; the stored value is the signed integer part. -/
def parseNumber (cs : List Char) : Option (Json × List Char) :=
  let sign : Int × List Char :=
    match cs with
    | '-' :: rest => (-1, rest)
    | _ => (1, cs)
  let p := takeDigits sign.2
  match p.1 with
  | [] => none
  | d :: ds =>
    if d == '0' && ds ≠ [] then none
    else
      let afterInt := p.2
      let afterFrac : Option (List Char) :=
        match afterInt with
        | '.' :: r =>
          let q := takeDigits r
          if q.1 = [] then none else some q.2
        | _ => some afterInt
      match afterFrac with
      | none => none
      | some rest1 =>
        let afterExp : Option (List Char) :=
          match rest1 with
          | 'e' :: r | 'E' :: r =>
            let r2 := match r with
              | '+' :: r3 => r3
              | '-' :: r3 => r3
              | _ => r
            let q := takeDigits r2
            if q.1 = [] then none else some q.2
          | _ => some rest1
        match afterExp with
        | none => none
        | some rest2 =>
          some (Json.num (sign.1 * Int.ofNat (digitsToNat (d :: ds))), rest2)

mutual

/-- Fuel-indexed recursive-descent parser for a single JSON value,
mirroring what `JSON.parse` accepts. -/
def parseValue : Nat → List Char → Option (Json × List Char)
  | 0, _ => none
  | f + 1, cs =>
    match skipWs cs with
    | [] => none
    | c :: rest =>
      if c == 'n' then
        match rest with
        | 'u' :: 'l' :: 'l' :: r => some (Json.null, r)
        | _ => none
      else if c == 't' then
        match rest with
        | 'r' :: 'u' :: 'e' :: r => some (Json.bool true, r)
        | _ => none
      else if c == 'f' then
        match rest with
        | 'a' :: 'l' :: 's' :: 'e' :: r => some (Json.bool false, r)
        | _ => none
      else if c == '"' then
        match parseStringBody (rest.length + 1) rest [] with
        | some (s, r) => some (Json.str s, r)
        | none => none
      else if c == '-' || isDigitCh c then parseNumber (c :: rest)
      else if c == '[' then
        match skipWs rest with
        | ']' :: r => some (Json.arr [], r)
        | _ => parseItems f rest []
      else if c == lbrace then
        match skipWs rest with
        | c2 :: r =>
          if c2 == rbrace then some (Json.obj [], r)
          else parseFields f rest []
        | [] => none
      else none

/-- Parse the comma-separated items of a non-empty JSON array, then the
closing bracket. -/
def parseItems : Nat → List Char → List Json → Option (Json × List Char)
  | 0, _, _ => none
  | f + 1, cs, acc =>
    match parseValue f cs with
    | none => none
    | some (v, rest) =>
      match skipWs rest with
      | ',' :: r => parseItems f r (v :: acc)
      | ']' :: r => some (Json.arr (v :: acc).reverse, r)
      | _ => none

/-- Parse the comma-separated members of a non-empty JSON object, then the
closing brace. -/
def parseFields : Nat → List Char → List (String × Json) → Option (Json × List Char)
  | 0, _, _ => none
  | f + 1, cs, acc =>
    match skipWs cs with
    | '"' :: rest =>
      match parseStringBody (rest.length + 1) rest [] with
      | none => none
      | some (k, rest2) =>
        match skipWs rest2 with
        | ':' :: rest3 =>
          match parseValue f rest3 with
          | none => none
          | some (v, rest4) =>
            match skipWs rest4 with
            | ',' :: r => parseFields f r ((k, v) :: acc)
            | c :: r =>
              if c == rbrace then some (Json.obj ((k, v) :: acc).reverse, r)
              else none
            | [] => none
        | _ => none
    | _ => none

end

/-- `JSON.parse` on a whole string: one value, possibly surrounded by
whitespace, and nothing else. -/
def jsonParse (s : String) : Option Json :=
  match parseValue (2 * s.length + 4) s.toList with
  | none => none
  | some (j, rest) =>
    match skipWs rest with
    | [] => some j
    | _ :: _ => none

/-- Last-wins lookup of an object member, mirroring how `JSON.parse`
resolves duplicate keys before property access. -/
def getField (fields : List (String × Json)) (k : String) : Option Json :=
  (fields.reverse.find? (fun p => p.1 == k)).map (fun p => p.2)

/-- How a JSON value reads when used as a string (object-key coercion /
display); containers are approximated by the empty string, which no claim
exercises. -/
def jsToDisplay : Json → String
  | Json.str s => s
  | Json.num n => toString n
  | Json.bool true => "true"
  | Json.bool false => "false"
  | Json.null => "null"
  | Json.arr _ => ""
  | Json.obj _ => ""

/-- A stage of the assembled roadmap with resolved tool descriptions. -/
structure RoadmapTool where
  name : String
  description : String
deriving DecidableEq, Repr

/-- A rendered roadmap stage. -/
structure RoadmapStage where
  stage : Int
  title : String
  skills : List String
  tools : List RoadmapTool
  certifications : List String
deriving DecidableEq, Repr

/-- `toolsTable[name] || fallback` of the enrichment step: the stored
description, or the generic fallback when the name is unknown (or its
stored description is the empty string, which is falsy). -/
def lookupToolDesc (table : List (String × String)) (name : String) : String :=
  match table.find? (fun p => p.1 == name) with
  | some p => if p.2 == "" then "Learn this tool as part of this stage" else p.2
  | none => "Learn this tool as part of this stage"

/-- A string list field read the lenient JavaScript way: an array is taken
element-wise, anything else is approximated by the empty list (the code
copies such a field verbatim and only a later render would observe it). -/
def getStrListD (fields : List (String × Json)) (k : String) : List String :=
  match getField fields k with
  | some (Json.arr xs) => xs.map jsToDisplay
  | _ => []

/-- The per-stage enrichment arrow of `generateRoadmap`.  Property access
on a non-object and `.map` on a missing or non-array `tools` field throw a
TypeError in JavaScript, modelled by `none`; the other fields are read
leniently. -/
def enrichStage (table : List (String × String)) (j : Json) : Option RoadmapStage :=
  match j with
  | Json.obj fields =>
    match getField fields "tools" with
    | some (Json.arr items) =>
      some
        { stage :=
            match getField fields "stage" with
            | some (Json.num n) => n
            | _ => 0,
          title :=
            match getField fields "title" with
            | some (Json.str s) => s
            | _ => "",
          skills := getStrListD fields "skills",
          tools := items.map (fun it =>
            let nm := jsToDisplay it
            { name := nm, description := lookupToolDesc table nm }),
          certifications := getStrListD fields "certifications" }
    | _ => none
  | _ => none

/-- `parsed.map(enrich)`: only an array can be mapped; a thrown TypeError
anywhere inside aborts the whole assembly (caught by the outer catch). -/
def enrichAll (table : List (String × String)) (j : Json) :
    Option (List RoadmapStage) :=
  match j with
  | Json.arr xs => xs.mapM (enrichStage table)
  | _ => none

/-- The completion-service response as the handler observes it. -/
inductive GroqResponse where
  | httpError (body : String)
  | noContent
  | content (raw : String)
  | networkError (msg : String)
deriving DecidableEq, Repr

/-- An effect emitted by `generateRoadmap`: a console log, or a user-visible
notice.  Roadmap.tsx contains no toast plumbing, so the model can only ever
emit console logs; the constructor for notices exists to state the spec
sentence about user-visible surfacing. -/
inductive RoadmapEff where
  | consoleError (msg : String)
  | userNotice (msg : String)
deriving DecidableEq, Repr

/-- `generateRoadmap` from Roadmap.tsx as a transition on the displayed
roadmap: a non-ok HTTP status, a missing or empty completion payload
(falsy `raw`), a JSON parse failure, or a TypeError during enrichment each
log to the console and leave the previous roadmap untouched; only a fully
enriched parse result replaces it. -/
def generateRoadmap (table : List (String × String)) (resp : GroqResponse)
    (prev : List RoadmapStage) : List RoadmapStage × List RoadmapEff :=
  match resp with
  | GroqResponse.httpError _ => (prev, [RoadmapEff.consoleError "Function error:"])
  | GroqResponse.networkError _ => (prev, [RoadmapEff.consoleError "Network error:"])
  | GroqResponse.noContent => (prev, [RoadmapEff.consoleError "Invalid LLM response:"])
  | GroqResponse.content raw =>
    if raw == "" then (prev, [RoadmapEff.consoleError "Invalid LLM response:"])
    else
      match jsonParse raw with
      | none => (prev, [RoadmapEff.consoleError "LLM returned invalid JSON:"])
      | some j =>
        match enrichAll table j with
        | none => (prev, [RoadmapEff.consoleError "Network error:"])
        | some stages => (stages, [])

end Roadmap

namespace AdminRoute

/-- What the admin-gated route renders. -/
inductive AdminRender where
  | loadingView
  | redirectHome
  | children
deriving DecidableEq, Repr

/-- `AdminRoute` from AdminRoute.tsx: while the session loads, a loading
placeholder; then a redirect to "/" unless a user is present whose profile
role is exactly "admin". -/
def adminRoute (loading : Bool) (user : Option String)
    (role : Option String) : AdminRender :=
  if loading then AdminRender.loadingView
  else if user.isNone || role ≠ some "admin" then AdminRender.redirectHome
  else AdminRender.children

end AdminRoute

/-! Concrete catalog rows used to instantiate the theorems below. -/

/-- A concrete catalog row. -/
def demoNmap : Tool :=
  { id := "t1", name := "Nmap", description := "Network scanner",
    tags := some ["network", "scanner"], category := some "Network Security",
    toolType := some "Open Source", trust_score := some 90, votes := some 120,
    last_updated := some 1700 }

/-- A concrete catalog row. -/
def demoWireshark : Tool :=
  { id := "t2", name := "Wireshark", description := "Packet analyzer",
    tags := some ["network"], category := some "Network Security",
    toolType := some "Free", trust_score := some 95, votes := some 80,
    last_updated := some 1600 }

/-- A concrete catalog row. -/
def demoBurp : Tool :=
  { id := "t3", name := "Burp Suite", description := "Web proxy",
    category := some "Web Security", toolType := some "Freemium",
    trust_score := some 95, votes := some 200, last_updated := some 1500 }

/-- A concrete catalog row with no optional data. -/
def demoGhidra : Tool :=
  { id := "t4", name := "Ghidra", description := "Reverse engineering suite" }

/-- A concrete catalog row. -/
def demoMetasploit : Tool :=
  { id := "t5", name := "Metasploit", description := "Exploitation framework",
    category := some "Offensive Security", toolType := some "Open Source",
    trust_score := some 88, votes := some 150, last_updated := some 1400 }

/-- A concrete rendered roadmap stage (the previously displayed state in the
C4 scenario). -/
def demoStage : Roadmap.RoadmapStage :=
  { stage := 1, title := "Foundations", skills := ["Linux"],
    tools := [{ name := "Nmap", description := "Network scanner" }],
    certifications := ["Security+"] }

/-- C10: the admin-gated route renders its children iff the session has
finished loading, a user is present, and the profile role is "admin";
while loading it shows the placeholder, and otherwise it redirects home. -/
theorem claim_C10_admin_route (loading : Bool) (user : Option String)
    (role : Option String) :
    (AdminRoute.adminRoute loading user role = AdminRoute.AdminRender.children ↔
      loading = false ∧ user.isSome = true ∧ role = some "admin") ∧
    (loading = true →
      AdminRoute.adminRoute loading user role = AdminRoute.AdminRender.loadingView) ∧
    (loading = false → (user = none ∨ role ≠ some "admin") →
      AdminRoute.adminRoute loading user role = AdminRoute.AdminRender.redirectHome) := by
  refine ⟨?_, ?_, ?_⟩
  · cases loading with
    | true => simp [AdminRoute.adminRoute]
    | false =>
      cases user with
      | none => simp [AdminRoute.adminRoute]
      | some u =>
        by_cases hr : role = some "admin" <;>
          simp [AdminRoute.adminRoute, hr]
  · intro h; subst h; simp [AdminRoute.adminRoute]
  · intro h hcase; subst h
    rcases hcase with h | h <;> simp [AdminRoute.adminRoute, h]

/-- C10 witness: with a loaded session and a non-admin role the route
redirects home. -/
theorem claim_C10_admin_route_witness :
    AdminRoute.adminRoute false (some "u1") (some "user") =
      AdminRoute.AdminRender.redirectHome :=
  (claim_C10_admin_route false (some "u1") (some "user")).2.2 rfl
    (Or.inr (by simp))

/-- C5: adding a tool to a comparison selection that already holds four
tools is a no-op on the whole state (selection, query parameter and dialog
flag alike), and the add operation never grows the selection beyond four. -/
theorem claim_C5_add_fifth_noop (st : Comparison.CompState) (t : Tool) :
    (st.selectedTools.length = 4 → Comparison.handleAddTool t st = st) ∧
    (st.selectedTools.length ≤ 4 →
      (Comparison.handleAddTool t st).selectedTools.length ≤ 4) := by
  constructor
  · intro h
    unfold Comparison.handleAddTool
    rw [if_pos (by omega)]
  · intro h
    unfold Comparison.handleAddTool
    by_cases h4 : st.selectedTools.length ≥ 4
    · rw [if_pos h4]; exact h
    · rw [if_neg h4]
      simp only [Comparison.updateUrl]
      split <;> simp <;> omega

/-- A full (four-tool) comparison selection. -/
def demoFullComp : Comparison.CompState :=
  { selectedTools := [demoNmap, demoWireshark, demoBurp, demoGhidra],
    urlTools := some "t1,t2,t3,t4", isAddDialogOpen := true }

/-- C5 witness: adding a fifth tool to a concrete four-tool selection
changes nothing. -/
theorem claim_C5_add_fifth_noop_witness :
    Comparison.handleAddTool demoMetasploit demoFullComp = demoFullComp :=
  (claim_C5_add_fifth_noop demoFullComp demoMetasploit).1 (by decide)

/-- C7: the review delete handler issues a backend delete exactly when an
identity is present, the identifier names a loaded review, and that review
was authored by the requester; in every other case no delete request is
sent. -/
theorem claim_C7_delete_guard (user : Option String)
    (reviews : List ReviewSection.Review) (id : Nat) :
    (∀ delId, ReviewSection.handleDeleteReview user reviews id = some delId →
      delId = id ∧ ∃ uid target, user = some uid ∧
        reviews.find? (fun r => r.id == id) = some target ∧
        target.user_id = uid) ∧
    (user = none → ReviewSection.handleDeleteReview user reviews id = none) ∧
    (reviews.find? (fun r => r.id == id) = none →
      ReviewSection.handleDeleteReview user reviews id = none) ∧
    (∀ uid target, user = some uid →
      reviews.find? (fun r => r.id == id) = some target →
      target.user_id ≠ uid →
      ReviewSection.handleDeleteReview user reviews id = none) := by
  refine ⟨?_, ?_, ?_, ?_⟩
  · intro delId h
    cases user with
    | none => simp [ReviewSection.handleDeleteReview] at h
    | some uid =>
      cases hf : reviews.find? (fun r => r.id == id) with
      | none => simp [ReviewSection.handleDeleteReview, hf] at h
      | some target =>
        by_cases ht : target.user_id = uid
        · simp only [ReviewSection.handleDeleteReview, hf, ht, beq_self_eq_true,
            if_true, Option.some.injEq] at h
          exact ⟨h.symm, uid, target, rfl, rfl, ht⟩
        · simp [ReviewSection.handleDeleteReview, hf, ht] at h
  · intro h; subst h; rfl
  · intro hf
    cases user with
    | none => rfl
    | some uid => simp [ReviewSection.handleDeleteReview, hf]
  · intro uid target hu hf ht
    subst hu
    simp [ReviewSection.handleDeleteReview, hf, ht]

/-- C7 witness: a delete request for a review authored by someone else is
suppressed. -/
theorem claim_C7_delete_guard_witness :
    ReviewSection.handleDeleteReview (some "u1")
      [{ id := 7, tool_id := "t1", user_id := "u2", rating := 4,
         comment := "ok", created_at := 0 }] 7 = none :=
  (claim_C7_delete_guard (some "u1")
      [{ id := 7, tool_id := "t1", user_id := "u2", rating := 4,
         comment := "ok", created_at := 0 }] 7).2.2.2 "u1"
    { id := 7, tool_id := "t1", user_id := "u2", rating := 4,
      comment := "ok", created_at := 0 } rfl (by decide) (by decide)

/-- C2 counterexample: the claim says BOTH sides of the category comparison
are normalized; on the filter value "Network Security" (which normalizes to
"network-security") the code-derived filter and the both-sides-normalized
filter disagree for a tool whose stored category is "Network Security". -/
theorem claim_C2_counterexample :
    ToolsList.codeCategoryPasses "Network Security" demoNmap ≠
      ToolsList.specCategoryPasses "Network Security" demoNmap := by decide

/-- C2 (amended): only the STORED field is normalized (lower-cased,
whitespace runs collapsed to one hyphen); the filter value is compared
verbatim against that normal form, and the value "all" bypasses both the
category and the type filter. -/
theorem claim_C2_amended (t : Tool) (v : String) :
    ToolsList.codeCategoryPasses "all" t = true ∧
    ToolsList.codeTypePasses "all" t = true ∧
    (v ≠ "all" →
      (ToolsList.codeCategoryPasses v t = true ↔
        ∃ c, t.category = some c ∧ ToolsList.normalizeFilterValue c = v)) ∧
    (v ≠ "all" →
      (ToolsList.codeTypePasses v t = true ↔
        ∃ c, t.toolType = some c ∧ ToolsList.normalizeFilterValue c = v)) := by
  refine ⟨by simp [ToolsList.codeCategoryPasses], by simp [ToolsList.codeTypePasses], ?_, ?_⟩
  · intro hv
    unfold ToolsList.codeCategoryPasses ToolsList.categoryPred
    cases t.category with
    | none => simp [hv]
    | some c => simp [hv]
  · intro hv
    unfold ToolsList.codeTypePasses ToolsList.typePred
    cases t.toolType with
    | none => simp [hv]
    | some c => simp [hv]

/-- C2 witness: with the already-normalized filter value "network-security"
the category check on a concrete tool reduces to the amended comparison. -/
theorem claim_C2_amended_witness :
    ToolsList.codeCategoryPasses "network-security" demoNmap = true ↔
      ∃ c, demoNmap.category = some c ∧
        ToolsList.normalizeFilterValue c = "network-security" :=
  (claim_C2_amended demoNmap "network-security").2.2.1 (by decide)

/-- A concrete ToolsList component state with an empty wishlist. -/
def demoTLState : ToolsList.TLState :=
  { tools := [demoNmap], wishlistedTools := [], votedTools := [], error := none }

/-- C6: evaluation at the failing input.  When the wishlist write resolves
with a backend error descriptor (a rejected write that does not throw),
the ToolsList handler nevertheless flips the displayed wishlist membership
and emits a success toast: the rejection neither preserves the displayed
state nor is surfaced as an error, contradicting the claim. -/
theorem claim_C6_wishlist_rejection_divergence :
    (ToolsList.handleWishlistToggle (some "u1") "t1"
        (CallResult.errReturn "permission denied") demoTLState).1.wishlistedTools =
      ["t1"] ∧
    (ToolsList.handleWishlistToggle (some "u1") "t1"
        (CallResult.errReturn "permission denied") demoTLState).2 =
      [Eff.toastSuccess "Added to wishlist"] := by decide

/-- C1: for a non-empty query, a tool is in the filtered output exactly
when it is in the input and passes the search predicate (case-insensitive
substring of name, description or some tag), the category stage and the
type stage ("all" bypassing the latter two). -/
theorem claim_C1_filter_membership (tools : List Tool) (q cat ty : String)
    (t : Tool) (hq : q ≠ "") :
    t ∈ ToolsList.filteredTools tools q cat ty ↔
      t ∈ tools ∧ ToolsList.searchPred q t = true ∧
      ToolsList.codeCategoryPasses cat t = true ∧
      ToolsList.codeTypePasses ty t = true := by
  by_cases hc : cat = "all" <;> by_cases hty : ty = "all" <;>
    simp [ToolsList.filteredTools, ToolsList.searchTools, hq, hc, hty,
      ToolsList.codeCategoryPasses, ToolsList.codeTypePasses,
      List.mem_filter, and_assoc] <;>
    tauto

/-- C1 witness: a concrete tool matching the query "network", the category
filter "network-security" and the type filter "open-source" is retained. -/
theorem claim_C1_filter_membership_witness :
    demoNmap ∈
      ToolsList.filteredTools [demoNmap, demoBurp] "network"
        "network-security" "open-source" :=
  (claim_C1_filter_membership [demoNmap, demoBurp] "network"
      "network-security" "open-source" demoNmap (by decide)).mpr (by decide)

/-- C4 counterexample: on the completion payload "not json" the assembly
does leave the previously displayed roadmap unchanged, but no user-visible
notice is emitted (the only effect is a console log), so the claim as
stated fails at this input. -/
theorem claim_C4_counterexample :
    ¬ ((Roadmap.generateRoadmap [] (Roadmap.GroqResponse.content "not json")
          [demoStage]).1 = [demoStage] ∧
        ∃ m, Roadmap.RoadmapEff.userNotice m ∈
          (Roadmap.generateRoadmap [] (Roadmap.GroqResponse.content "not json")
            [demoStage]).2) := by
  intro h
  obtain ⟨-, m, hm⟩ := h
  have he : (Roadmap.generateRoadmap [] (Roadmap.GroqResponse.content "not json")
      [demoStage]).2 =
      [Roadmap.RoadmapEff.consoleError "LLM returned invalid JSON:"] := rfl
  rw [he] at hm
  simp at hm

/-- C4 (amended): a completion payload that is empty, missing, or not
parseable as JSON aborts the roadmap assembly with the error reported on
the developer console (not as a user-visible notice), and the previously
displayed roadmap state is left completely unchanged — no partial roadmap
is rendered. -/
theorem claim_C4_amended (table : List (String × String))
    (prev : List Roadmap.RoadmapStage) (raw : String)
    (h : raw = "" ∨ Roadmap.jsonParse raw = none) :
    ((Roadmap.generateRoadmap table (Roadmap.GroqResponse.content raw) prev).1 = prev ∧
      ∃ m, (Roadmap.generateRoadmap table (Roadmap.GroqResponse.content raw) prev).2 =
        [Roadmap.RoadmapEff.consoleError m]) ∧
    ((Roadmap.generateRoadmap table Roadmap.GroqResponse.noContent prev).1 = prev ∧
      ∃ m, (Roadmap.generateRoadmap table Roadmap.GroqResponse.noContent prev).2 =
        [Roadmap.RoadmapEff.consoleError m]) := by
  constructor
  · rcases h with h | h
    · subst h
      exact ⟨rfl, "Invalid LLM response:", rfl⟩
    · by_cases he : raw = ""
      · subst he
        exact ⟨rfl, "Invalid LLM response:", rfl⟩
      · have hne : (raw == "") = false := by simpa using he
        refine ⟨?_, "LLM returned invalid JSON:", ?_⟩ <;>
          simp [Roadmap.generateRoadmap, hne, h]
  · exact ⟨rfl, "Invalid LLM response:", rfl⟩

/-- C4 witness: instantiated at the payload "not json" over a concrete
previously displayed roadmap. -/
theorem claim_C4_amended_witness :
    ((Roadmap.generateRoadmap [] (Roadmap.GroqResponse.content "not json")
        [demoStage]).1 = [demoStage] ∧
      ∃ m, (Roadmap.generateRoadmap [] (Roadmap.GroqResponse.content "not json")
        [demoStage]).2 = [Roadmap.RoadmapEff.consoleError m]) ∧
    ((Roadmap.generateRoadmap [] Roadmap.GroqResponse.noContent [demoStage]).1 =
        [demoStage] ∧
      ∃ m, (Roadmap.generateRoadmap [] Roadmap.GroqResponse.noContent
        [demoStage]).2 = [Roadmap.RoadmapEff.consoleError m]) :=
  claim_C4_amended [] [demoStage] "not json" (Or.inr rfl)

/-- The comparator at key "name" is the string comparison. -/
lemma toolCmp_name_eq (a b : Tool) :
    ToolsList.toolCmp "name" a b = ToolsList.strCmp a.name b.name := rfl

/-- The comparator at key "trust-score" is the score difference. -/
lemma toolCmp_trust_eq (a b : Tool) :
    ToolsList.toolCmp "trust-score" a b =
      ToolsList.scoreOf b - ToolsList.scoreOf a := rfl

/-- The comparator at key "popularity" is the vote difference. -/
lemma toolCmp_pop_eq (a b : Tool) :
    ToolsList.toolCmp "popularity" a b =
      ToolsList.votesOf b - ToolsList.votesOf a := rfl

/-- The comparator at key "recent" is the timestamp difference. -/
lemma toolCmp_recent_eq (a b : Tool) :
    ToolsList.toolCmp "recent" a b =
      ToolsList.timeOf b - ToolsList.timeOf a := rfl

/-- An unknown sort key compares every pair equal. -/
lemma toolCmp_unknown (key : String) (h1 : key ≠ "name")
    (h2 : key ≠ "trust-score") (h3 : key ≠ "popularity")
    (h4 : key ≠ "recent") (a b : Tool) :
    ToolsList.toolCmp key a b = 0 := by
  unfold ToolsList.toolCmp
  rw [if_neg (by simp [h1]), if_neg (by simp [h2]), if_neg (by simp [h3]),
    if_neg (by simp [h4])]

/-- A non-positive sign comparison is exactly the string order. -/
lemma strCmp_le_iff (a b : String) : ToolsList.strCmp a b ≤ 0 ↔ a ≤ b := by
  unfold ToolsList.strCmp
  by_cases h1 : a < b
  · simp [h1, le_of_lt h1]
  · by_cases h2 : b < a
    · rw [if_neg h1, if_pos h2]
      constructor
      · intro hle; exact absurd hle (by norm_num)
      · intro hle; exact absurd hle (not_le.mpr h2)
    · have he : a = b := le_antisymm (not_lt.mp h2) (not_lt.mp h1)
      rw [if_neg h1, if_neg h2]
      simp [he]

/-- Insertion sort under a total, transitive ordering relation yields a
pairwise-ordered list. -/
lemma pairwise_insertionSort_tool (r : Tool → Tool → Prop) [DecidableRel r]
    (total : ∀ a b, r a b ∨ r b a)
    (htrans : ∀ a b c, r a b → r b c → r a c) (l : List Tool) :
    (l.insertionSort r).Pairwise r := by
  haveI : IsTotal Tool r := ⟨total⟩
  haveI : IsTrans Tool r := ⟨fun a b c => htrans a b c⟩
  exact List.sorted_insertionSort r l

/-- Insertion sort under an everywhere-true relation is the identity. -/
lemma insertionSort_eq_self_of_all {α : Type} (r : α → α → Prop)
    [DecidableRel r] (h : ∀ a b, r a b) (l : List α) :
    l.insertionSort r = l := by
  induction l with
  | nil => rfl
  | cons x xs ih =>
    rw [List.insertionSort, ih]
    cases xs with
    | nil => rfl
    | cons y ys => simp [List.orderedInsert, h x y]

/-- C8: each known sort key yields a permutation of the filtered list that
is pairwise ordered per that key — name lexicographically ascending,
trust score descending, votes descending, last-updated descending, each
with a missing value read as 0 — and an unknown key leaves the list in its
existing order. -/
theorem claim_C8_sort_spec (l : List Tool) :
    ((ToolsList.sortedTools "name" l).Perm l ∧
      (ToolsList.sortedTools "name" l).Pairwise (fun a b => a.name ≤ b.name)) ∧
    ((ToolsList.sortedTools "trust-score" l).Perm l ∧
      (ToolsList.sortedTools "trust-score" l).Pairwise
        (fun a b => ToolsList.scoreOf b ≤ ToolsList.scoreOf a)) ∧
    ((ToolsList.sortedTools "popularity" l).Perm l ∧
      (ToolsList.sortedTools "popularity" l).Pairwise
        (fun a b => ToolsList.votesOf b ≤ ToolsList.votesOf a)) ∧
    ((ToolsList.sortedTools "recent" l).Perm l ∧
      (ToolsList.sortedTools "recent" l).Pairwise
        (fun a b => ToolsList.timeOf b ≤ ToolsList.timeOf a)) ∧
    (∀ key, key ≠ "name" → key ≠ "trust-score" → key ≠ "popularity" →
      key ≠ "recent" → ToolsList.sortedTools key l = l) := by
  refine ⟨⟨List.perm_insertionSort _ l, ?_⟩, ⟨List.perm_insertionSort _ l, ?_⟩,
    ⟨List.perm_insertionSort _ l, ?_⟩, ⟨List.perm_insertionSort _ l, ?_⟩, ?_⟩
  · have h := pairwise_insertionSort_tool
      (fun a b => ToolsList.toolCmp "name" a b ≤ 0)
      (fun a b => by
        dsimp only
        rw [toolCmp_name_eq, toolCmp_name_eq, strCmp_le_iff, strCmp_le_iff]
        exact le_total a.name b.name)
      (fun a b c hab hbc => by
        dsimp only at hab hbc ⊢
        rw [toolCmp_name_eq, strCmp_le_iff] at hab hbc ⊢
        exact le_trans hab hbc) l
    exact h.imp (fun hab => by
      try dsimp only at hab
      rwa [toolCmp_name_eq, strCmp_le_iff] at hab)
  · have h := pairwise_insertionSort_tool
      (fun a b => ToolsList.toolCmp "trust-score" a b ≤ 0)
      (fun a b => by dsimp only; rw [toolCmp_trust_eq, toolCmp_trust_eq]; omega)
      (fun a b c hab hbc => by
        dsimp only at hab hbc ⊢
        rw [toolCmp_trust_eq] at hab hbc ⊢; omega) l
    exact h.imp (fun hab => by
      try dsimp only at hab
      rw [toolCmp_trust_eq] at hab; omega)
  · have h := pairwise_insertionSort_tool
      (fun a b => ToolsList.toolCmp "popularity" a b ≤ 0)
      (fun a b => by dsimp only; rw [toolCmp_pop_eq, toolCmp_pop_eq]; omega)
      (fun a b c hab hbc => by
        dsimp only at hab hbc ⊢
        rw [toolCmp_pop_eq] at hab hbc ⊢; omega) l
    exact h.imp (fun hab => by
      try dsimp only at hab
      rw [toolCmp_pop_eq] at hab; omega)
  · have h := pairwise_insertionSort_tool
      (fun a b => ToolsList.toolCmp "recent" a b ≤ 0)
      (fun a b => by dsimp only; rw [toolCmp_recent_eq, toolCmp_recent_eq]; omega)
      (fun a b c hab hbc => by
        dsimp only at hab hbc ⊢
        rw [toolCmp_recent_eq] at hab hbc ⊢; omega) l
    exact h.imp (fun hab => by
      try dsimp only at hab
      rw [toolCmp_recent_eq] at hab; omega)
  · intro key h1 h2 h3 h4
    exact insertionSort_eq_self_of_all _
      (fun a b => by try dsimp only
                     rw [toolCmp_unknown key h1 h2 h3 h4]) l

/-- C8 witness: a concrete unknown sort key keeps a concrete list in its
existing order. -/
theorem claim_C8_sort_spec_witness :
    ToolsList.sortedTools "alphabetical" [demoWireshark, demoNmap] =
      [demoWireshark, demoNmap] :=
  (claim_C8_sort_spec [demoWireshark, demoNmap]).2.2.2.2 "alphabetical"
    (by decide) (by decide) (by decide) (by decide)

/-- Inserting an element that satisfies `p`, when `p`-elements all compare
at or after it, prepends it to the `p`-filtered view. -/
lemma filter_orderedInsert_pos (r : Tool → Tool → Prop) [DecidableRel r]
    (p : Tool → Bool) (x : Tool) (hx : p x = true)
    (hcompat : ∀ y, p y = true → r x y) (l : List Tool) :
    (List.orderedInsert r x l).filter p = x :: l.filter p := by
  induction l with
  | nil => simp [List.orderedInsert, hx]
  | cons y ys ih =>
    by_cases hr : r x y
    · simp [List.orderedInsert, hr, List.filter_cons, hx]
    · have hy : p y = false := by
        cases hpy : p y with
        | true => exact absurd (hcompat y hpy) hr
        | false => rfl
      simp [List.orderedInsert, hr, List.filter_cons, hy, ih]

/-- Inserting an element that fails `p` leaves the `p`-filtered view
unchanged. -/
lemma filter_orderedInsert_neg (r : Tool → Tool → Prop) [DecidableRel r]
    (p : Tool → Bool) (x : Tool) (hx : p x = false) (l : List Tool) :
    (List.orderedInsert r x l).filter p = l.filter p := by
  induction l with
  | nil => simp [List.orderedInsert, hx]
  | cons y ys ih =>
    by_cases hr : r x y
    · simp [List.orderedInsert, hr, List.filter_cons, hx]
    · simp [List.orderedInsert, hr, List.filter_cons, ih]

/-- Stability of the trust-score sort: the subsequence of tools sharing any
fixed score is preserved verbatim. -/
lemma filter_score_insertionSort (s : Int) (l : List Tool) :
    (l.insertionSort
        (fun a b => ToolsList.toolCmp "trust-score" a b ≤ 0)).filter
      (fun t => ToolsList.scoreOf t == s) =
    l.filter (fun t => ToolsList.scoreOf t == s) := by
  induction l with
  | nil => rfl
  | cons x xs ih =>
    rw [List.insertionSort]
    by_cases hp : (ToolsList.scoreOf x == s) = true
    · rw [filter_orderedInsert_pos _ _ x hp ?hcompat, ih, List.filter_cons,
        if_pos hp]
      case hcompat =>
        intro y hy
        have h1 : ToolsList.scoreOf x = s := by simpa using hp
        have h2 : ToolsList.scoreOf y = s := by simpa using hy
        show ToolsList.toolCmp "trust-score" x y ≤ 0
        rw [toolCmp_trust_eq]; omega
    · have hp2 : (ToolsList.scoreOf x == s) = false := by simpa using hp
      rw [filter_orderedInsert_neg _ _ x hp2, ih, List.filter_cons, if_neg hp]

/-- C9: the trust-score sort is a total comparison, permutes the input, is
stable (tools of equal score keep their relative order), and is idempotent:
sorting its own output reproduces it exactly. -/
theorem claim_C9_trust_sort (l : List Tool) :
    ToolsList.sortedTools "trust-score" (ToolsList.sortedTools "trust-score" l) =
      ToolsList.sortedTools "trust-score" l ∧
    (ToolsList.sortedTools "trust-score" l).Perm l ∧
    (∀ a b : Tool, ToolsList.toolCmp "trust-score" a b ≤ 0 ∨
      ToolsList.toolCmp "trust-score" b a ≤ 0) ∧
    (∀ s : Int,
      (ToolsList.sortedTools "trust-score" l).filter
          (fun t => ToolsList.scoreOf t == s) =
        l.filter (fun t => ToolsList.scoreOf t == s)) := by
  have hpair := pairwise_insertionSort_tool
    (fun a b => ToolsList.toolCmp "trust-score" a b ≤ 0)
    (fun a b => by dsimp only; rw [toolCmp_trust_eq, toolCmp_trust_eq]; omega)
    (fun a b c hab hbc => by
      dsimp only at hab hbc ⊢
      rw [toolCmp_trust_eq] at hab hbc ⊢; omega) l
  refine ⟨?_, List.perm_insertionSort _ l, ?_, ?_⟩
  · unfold ToolsList.sortedTools
    exact List.Sorted.insertionSort_eq hpair
  · intro a b; rw [toolCmp_trust_eq, toolCmp_trust_eq]; omega
  · intro s
    exact filter_score_insertionSort s l

/-- C9 witness: sorting a concrete list twice reproduces the once-sorted
order. -/
theorem claim_C9_trust_sort_witness :
    ToolsList.sortedTools "trust-score"
        (ToolsList.sortedTools "trust-score"
          [demoNmap, demoWireshark, demoGhidra]) =
      ToolsList.sortedTools "trust-score" [demoNmap, demoWireshark, demoGhidra] :=
  (claim_C9_trust_sort [demoNmap, demoWireshark, demoGhidra]).1

/-- A find over a list whose unique satisfier is known returns it. -/
lemma find?_eq_some_of_unique {α : Type} (p : α → Bool) (l : List α) (x : α)
    (hmem : x ∈ l) (hp : p x = true) (huniq : ∀ y ∈ l, p y = true → y = x) :
    l.find? p = some x := by
  induction l with
  | nil => cases hmem
  | cons a as ih =>
    cases hpa : p a with
    | true =>
      rw [List.find?_cons_of_pos as hpa]
      exact congrArg some (huniq a (List.mem_cons_self a as) hpa)
    | false =>
      rw [List.find?_cons_of_neg as (by simp [hpa])]
      have hmem2 : x ∈ as := by
        rcases List.mem_cons.mp hmem with h | h
        · subst h; rw [hpa] at hp; cases hp
        · exact h
      exact ih hmem2 (fun y hy hpy => huniq y (List.mem_cons_of_mem a hy) hpy)

/-- The store component of a synchronized submission. -/
lemma submitDb_eq (db : ReviewSection.ReviewsDB) (toolId uid : String)
    (r : Nat) (c : String) :
    ReviewSection.submitDb db toolId uid r c =
      (ReviewSection.submitSynced db toolId (some uid) r c).1 := rfl

/-- With an identity, passing guards, and no known review id, the submit
handler inserts. -/
lemma handleSubmit_insert (db : ReviewSection.ReviewsDB) (toolId uid : String)
    (r : Nat) (c : String) (hg : ¬((r == 0 || jsTrim c == "") = true)) :
    ReviewSection.handleSubmitReview db toolId (some uid) r c none none =
      (ReviewSection.insertReview db toolId uid r (jsTrim c),
        ReviewSection.SubmitOutcome.inserted) := by
  simp only [ReviewSection.handleSubmitReview]
  rw [if_neg hg]
  rfl

/-- With an identity, passing guards, and a known review id, the submit
handler updates that id in place. -/
lemma handleSubmit_update (db : ReviewSection.ReviewsDB) (toolId uid : String)
    (r : Nat) (c : String) (rid : Nat)
    (cur : Option ReviewSection.Review)
    (hg : ¬((r == 0 || jsTrim c == "") = true)) :
    ReviewSection.handleSubmitReview db toolId (some uid) r c (some rid) cur =
      (ReviewSection.updateReview db rid r (jsTrim c),
        ReviewSection.SubmitOutcome.updated rid) := by
  simp only [ReviewSection.handleSubmitReview]
  rw [if_neg hg]

/-- C3: from a store with no review for (toolId, uid) whose identifiers are
consistent, a valid synchronized submission inserts exactly one review for
the pair carrying the given rating and trimmed comment; a second valid
synchronized submission is performed as an update of that same review
identifier — never a second insert — so exactly one review for the pair
remains, now carrying the second rating. -/
theorem claim_C3_review_upsert (db : ReviewSection.ReviewsDB)
    (toolId uid : String) (r1 : Nat) (c1 : String) (r2 : Nat) (c2 : String)
    (hnone : ReviewSection.pairCount db toolId uid = 0)
    (hid : ∀ r ∈ db.rows, r.id < db.nextId)
    (hr1 : r1 ≠ 0) (hc1 : jsTrim c1 ≠ "")
    (hr2 : r2 ≠ 0) (hc2 : jsTrim c2 ≠ "") :
    ReviewSection.submitOut db toolId uid r1 c1 =
      ReviewSection.SubmitOutcome.inserted ∧
    ReviewSection.pairCount (ReviewSection.submitDb db toolId uid r1 c1)
      toolId uid = 1 ∧
    (∃ rv, rv ∈ (ReviewSection.submitDb db toolId uid r1 c1).rows ∧
      rv.id = db.nextId ∧ rv.tool_id = toolId ∧ rv.user_id = uid ∧
      rv.rating = r1 ∧ rv.comment = jsTrim c1) ∧
    ReviewSection.submitOut (ReviewSection.submitDb db toolId uid r1 c1)
      toolId uid r2 c2 = ReviewSection.SubmitOutcome.updated db.nextId ∧
    (ReviewSection.submitDb (ReviewSection.submitDb db toolId uid r1 c1)
      toolId uid r2 c2).nextId =
      (ReviewSection.submitDb db toolId uid r1 c1).nextId ∧
    ReviewSection.pairCount
      (ReviewSection.submitDb (ReviewSection.submitDb db toolId uid r1 c1)
        toolId uid r2 c2) toolId uid = 1 ∧
    (∃ rv, rv ∈ (ReviewSection.submitDb
        (ReviewSection.submitDb db toolId uid r1 c1) toolId uid r2 c2).rows ∧
      rv.id = db.nextId ∧ rv.tool_id = toolId ∧ rv.user_id = uid ∧
      rv.rating = r2 ∧ rv.comment = jsTrim c2) := by
  have hguard1 : ¬((r1 == 0 || jsTrim c1 == "") = true) := by simp [hr1, hc1]
  have hguard2 : ¬((r2 == 0 || jsTrim c2 == "") = true) := by simp [hr2, hc2]
  have hfilnil : db.rows.filter
      (fun r => r.tool_id == toolId && r.user_id == uid) = [] := by
    unfold ReviewSection.pairCount at hnone
    exact List.length_eq_zero.mp hnone
  have hrows : ∀ r ∈ db.rows,
      ¬((r.tool_id == toolId && r.user_id == uid) = true) :=
    List.filter_eq_nil_iff.mp hfilnil
  -- the row the first submission inserts
  set newRow : ReviewSection.Review :=
    { id := db.nextId, tool_id := toolId, user_id := uid,
      rating := r1, comment := jsTrim c1, created_at := db.now } with hnew
  -- the component finds no review for the pair before the first submission
  have hcur : ReviewSection.currentUserReviewOf db toolId (some uid) = none := by
    unfold ReviewSection.currentUserReviewOf
    apply List.find?_eq_none.mpr
    intro x hx
    unfold ReviewSection.reviewsForTool at hx
    rw [List.mem_insertionSort] at hx
    obtain ⟨hxr, hxt⟩ := List.mem_filter.mp hx
    intro hxu
    exact hrows x hxr (by simp [hxt, hxu])
  have hsync1 : ReviewSection.submitSynced db toolId (some uid) r1 c1 =
      (ReviewSection.insertReview db toolId uid r1 (jsTrim c1),
        ReviewSection.SubmitOutcome.inserted) := by
    unfold ReviewSection.submitSynced
    rw [hcur]
    exact handleSubmit_insert db toolId uid r1 c1 hguard1
  have hdb1 : ReviewSection.submitDb db toolId uid r1 c1 =
      ReviewSection.insertReview db toolId uid r1 (jsTrim c1) := by
    unfold ReviewSection.submitDb
    rw [hsync1]
  have hdb1rows : (ReviewSection.submitDb db toolId uid r1 c1).rows =
      db.rows ++ [newRow] := by
    rw [hdb1]; rfl
  have hdb1next : (ReviewSection.submitDb db toolId uid r1 c1).nextId =
      db.nextId + 1 := by
    rw [hdb1]; rfl
  have hpnew : (newRow.tool_id == toolId && newRow.user_id == uid) = true := by
    simp [hnew]
  -- after resynchronizing, the component sees exactly the inserted review
  have hcur1 : ReviewSection.currentUserReviewOf
      (ReviewSection.submitDb db toolId uid r1 c1) toolId (some uid) =
      some newRow := by
    unfold ReviewSection.currentUserReviewOf
    apply find?_eq_some_of_unique
    · unfold ReviewSection.reviewsForTool
      rw [List.mem_insertionSort]
      apply List.mem_filter.mpr
      refine ⟨?_, by simp [hnew]⟩
      rw [hdb1rows]
      simp
    · simp [hnew]
    · intro y hy hpy
      unfold ReviewSection.reviewsForTool at hy
      rw [List.mem_insertionSort] at hy
      obtain ⟨hyr, hyt⟩ := List.mem_filter.mp hy
      rw [hdb1rows] at hyr
      rcases List.mem_append.mp hyr with h | h
      · exact absurd (show (y.tool_id == toolId && y.user_id == uid) = true by
          simp [hyt, hpy]) (hrows y h)
      · simpa using h
  have hsync2 : ReviewSection.submitSynced
      (ReviewSection.submitDb db toolId uid r1 c1) toolId (some uid) r2 c2 =
      (ReviewSection.updateReview (ReviewSection.submitDb db toolId uid r1 c1)
          db.nextId r2 (jsTrim c2),
        ReviewSection.SubmitOutcome.updated db.nextId) := by
    unfold ReviewSection.submitSynced
    rw [hcur1]
    exact handleSubmit_update _ toolId uid r2 c2 db.nextId (some newRow) hguard2
  have hdb2 : ReviewSection.submitDb (ReviewSection.submitDb db toolId uid r1 c1)
      toolId uid r2 c2 =
      ReviewSection.updateReview (ReviewSection.submitDb db toolId uid r1 c1)
        db.nextId r2 (jsTrim c2) := by
    rw [submitDb_eq (ReviewSection.submitDb db toolId uid r1 c1) toolId uid r2 c2,
      hsync2]
  -- the updated incarnation of the inserted row
  set newRow2 : ReviewSection.Review :=
    { id := db.nextId, tool_id := toolId, user_id := uid,
      rating := r2, comment := jsTrim c2, created_at := db.now } with hnew2
  have hmapold : db.rows.map (fun r =>
      if r.id == db.nextId then { r with rating := r2, comment := jsTrim c2 }
      else r) = db.rows := by
    have h := List.map_congr_left (l := db.rows)
      (f := fun r : ReviewSection.Review =>
        if r.id == db.nextId then { r with rating := r2, comment := jsTrim c2 }
        else r)
      (g := id)
      (fun a ha => by
        have hne : a.id ≠ db.nextId := Nat.ne_of_lt (hid a ha)
        simp [hne])
    simpa using h
  have hdb2rows : (ReviewSection.submitDb
      (ReviewSection.submitDb db toolId uid r1 c1) toolId uid r2 c2).rows =
      db.rows ++ [newRow2] := by
    rw [hdb2]
    unfold ReviewSection.updateReview
    rw [hdb1rows]
    rw [List.map_append, hmapold]
    simp [hnew, hnew2]
  refine ⟨?_, ?_, ?_, ?_, ?_, ?_, ?_⟩
  · unfold ReviewSection.submitOut
    rw [hsync1]
  · unfold ReviewSection.pairCount
    rw [hdb1rows, List.filter_append, hfilnil]
    simp [hpnew]
  · exact ⟨newRow, by rw [hdb1rows]; simp, rfl, rfl, rfl, rfl, rfl⟩
  · unfold ReviewSection.submitOut
    rw [hsync2]
  · rw [hdb2]
    unfold ReviewSection.updateReview
    rfl
  · unfold ReviewSection.pairCount
    rw [hdb2rows, List.filter_append, hfilnil]
    simp [hnew2]
  · exact ⟨newRow2, by rw [hdb2rows]; simp, rfl, rfl, rfl, rfl, rfl⟩

/-- A concrete empty review store. -/
def demoReviewsDB : ReviewSection.ReviewsDB :=
  { rows := [], nextId := 1, now := 100 }

/-- C3 witness: a concrete first submission (rating 4, comment "Solid")
into an empty store inserts, and the concrete second submission updates
the same review in place. -/
theorem claim_C3_review_upsert_witness :
    ReviewSection.submitOut demoReviewsDB "t1" "u1" 4 "Solid" =
      ReviewSection.SubmitOutcome.inserted ∧
    ReviewSection.pairCount
      (ReviewSection.submitDb demoReviewsDB "t1" "u1" 4 "Solid") "t1" "u1" = 1 ∧
    ReviewSection.submitOut
      (ReviewSection.submitDb demoReviewsDB "t1" "u1" 4 "Solid")
      "t1" "u1" 5 "Even better" =
      ReviewSection.SubmitOutcome.updated demoReviewsDB.nextId ∧
    ReviewSection.pairCount
      (ReviewSection.submitDb
        (ReviewSection.submitDb demoReviewsDB "t1" "u1" 4 "Solid")
        "t1" "u1" 5 "Even better") "t1" "u1" = 1 := by
  have h := claim_C3_review_upsert demoReviewsDB "t1" "u1" 4 "Solid" 5
    "Even better" (by decide) (by simp [demoReviewsDB]) (by decide) (by decide)
    (by decide) (by decide)
  exact ⟨h.1, h.2.1, h.2.2.2.1, h.2.2.2.2.2.1⟩

end CyberDirectory
